import Mathlib

/-!
Verification of the flask-music-database repository against its
natural-language specification.

The Python sources under `routes/`, `auth.py` and `app.py` are shallowly
embedded below: pure helpers become Lean functions on `List Char` /
`String`, the SQLite-backed handlers become explicit state transformers
over a `DB` record, and exceptions become `Except` / `Option` results.
The schema file `music_database.sql` is not part of the repository
snapshot; its foreign-key declarations are modelled from the spec where
needed (marked in doc comments).
-/

namespace MusicDB

/-! ### Python string primitives

`str.strip()` removes leading and trailing whitespace; `int(...)`
strips whitespace, accepts an optional sign and decimal digits.
-/

/-- Whitespace characters recognised by Python `str.strip()` (ASCII subset). -/
def isPySpace (c : Char) : Bool :=
  c = ' ' || c = '\t' || c = '\n' || c = '\x0d' || c = '\x0b' || c = '\x0c'

/-- Left-trim: drop leading whitespace. -/
def ltrim (l : List Char) : List Char := l.dropWhile isPySpace

/-- Embedding of Python `str.strip()` on character lists:
drop leading whitespace, then trailing whitespace. -/
def pyStripList (l : List Char) : List Char :=
  ((l.dropWhile isPySpace).reverse.dropWhile isPySpace).reverse

/-- Embedding of Python `str.strip()`. -/
def pyStrip (s : String) : String := ⟨pyStripList s.data⟩

/-- ASCII decimal digit test. -/
def isDigit (c : Char) : Bool := '0' ≤ c && c ≤ '9'

/-- A non-empty all-digit character list (the digit part accepted by `int`). -/
def isDigits (l : List Char) : Bool := !l.isEmpty && l.all isDigit

/-- Numeric value of a digit character. -/
def charToDigit (c : Char) : Nat := c.toNat - 48

/-- Accumulating decimal value of a digit list (most significant first). -/
def digitsToNat : List Char → Nat → Nat
  | [], acc => acc
  | c :: cs, acc => digitsToNat cs (acc * 10 + charToDigit c)

/-- Core of Python `int(str)` after stripping: optional sign, then digits. -/
def pyIntCore (t : List Char) : Option Int :=
  match t with
  | [] => none
  | c :: rest =>
    if c = '-' then
      if isDigits rest then some (-(digitsToNat rest 0 : Int)) else none
    else if c = '+' then
      if isDigits rest then some ((digitsToNat rest 0 : Int)) else none
    else if isDigits t then some ((digitsToNat t 0 : Int)) else none

/-- Embedding of Python `int(str)` on character lists: the argument is
stripped of surrounding whitespace, then parsed as an optionally signed
decimal numeral; failure (`ValueError`) is `none`. -/
def pyIntList (l : List Char) : Option Int := pyIntCore (pyStripList l)

/-- Embedding of Python `int(str)`. -/
def pyInt (s : String) : Option Int := pyIntList s.data

/-- Decimal digit character for a value `< 10`. -/
def digitChar : Nat → Char
  | 0 => '0' | 1 => '1' | 2 => '2' | 3 => '3' | 4 => '4'
  | 5 => '5' | 6 => '6' | 7 => '7' | 8 => '8' | 9 => '9'
  | _ => '*'

/-- Fuel-driven decimal rendering of a natural number (most significant
digit first); the fuel is an upper bound making the recursion structural. -/
def natToDigitsAux : Nat → Nat → List Char
  | 0, _ => []
  | fuel + 1, n =>
    if n < 10 then [digitChar n]
    else natToDigitsAux fuel (n / 10) ++ [digitChar (n % 10)]

/-- Decimal rendering of a natural number, as produced by a Python
f-string such as `f"{m}"`. -/
def natToDigits (n : Nat) : List Char := natToDigitsAux (n + 1) n

/-- Decimal rendering of an integer (a leading '-' for negatives). -/
def intToDigits (i : Int) : List Char :=
  if i < 0 then '-' :: natToDigits i.natAbs else natToDigits i.toNat

/-- Python `f"{s:02d}"` for `0 ≤ s < 100`: zero-pad to two digits. -/
def pad2 (s : Nat) : List Char :=
  if s < 10 then '0' :: natToDigits s else natToDigits s

/-- Python `mmss.split(":", 1)` for a string known to contain `':'`:
the part before the first separator and the rest after it. -/
def splitFirst (l : List Char) (sep : Char) : List Char × List Char :=
  (l.takeWhile (fun c => !(c = sep)), (l.dropWhile (fun c => !(c = sep))).tail)

/-! ### Duration codec (routes/songs.py) -/

/-- Embedding of `seconds_to_mmss` (routes/songs.py): `None` renders as
the empty string; otherwise `m, s = divmod(int(seconds), 60)` (Python
floor division) rendered as `f"{m}:{s:02d}"`. -/
def seconds_to_mmss : Option Int → String
  | none => ""
  | some n =>
    let m := Int.fdiv n 60
    let s := (Int.fmod n 60).toNat
    ⟨intToDigits m ++ ':' :: pad2 s⟩

/-- Embedding of `mmss_to_seconds` (routes/songs.py): empty input is
`None`; otherwise the input is stripped; if it contains `':'` it is
split once and both parts go through `int`, any `ValueError` giving
`None`; otherwise the whole string goes through `int`. -/
def mmss_to_seconds (mmss : String) : Option Int :=
  if mmss.data = [] then none
  else
    let t := pyStripList mmss.data
    if t.elem ':' then
      match pyIntList (splitFirst t ':').1, pyIntList (splitFirst t ':').2 with
      | some m, some s => some (m * 60 + s)
      | _, _ => none
    else pyIntList t

example : mmss_to_seconds "3:45" = some 225 := by decide
example : seconds_to_mmss (some 225) = "3:45" := by decide
example : mmss_to_seconds "bad:input" = none := by decide
example : mmss_to_seconds "-90" = some (-90) := by decide
example : mmss_to_seconds "  1:2:3 " = none := by decide
example : mmss_to_seconds "   " = none := by decide
example : mmss_to_seconds " 45 " = some 45 := by decide
example : seconds_to_mmss (some (-90)) = "-2:30" := by decide

/-! ### Data model

One record per table of the SQLite schema.  Rows are kept in insertion
order in plain lists; SQLite integer keys are modelled as `Int`.
-/

structure Artist where
  id : Int
  name : String
  bio : Option String
deriving Repr, DecidableEq

structure Album where
  id : Int
  title : String
  artist_id : Int
  release_year : Option String
deriving Repr, DecidableEq

structure Song where
  id : Int
  title : String
  duration : Option Int
deriving Repr, DecidableEq

structure Genre where
  id : Int
  name : String
deriving Repr, DecidableEq

structure AlbumSong where
  album_id : Int
  song_id : Int
deriving Repr, DecidableEq

structure SongGenre where
  song_id : Int
  genre_id : Int
deriving Repr, DecidableEq

structure AlbumGenre where
  album_id : Int
  genre_id : Int
deriving Repr, DecidableEq

/-- The database state: the seven tables of the music catalog. -/
structure DB where
  artists : List Artist
  albums : List Album
  songs : List Song
  genres : List Genre
  album_songs : List AlbumSong
  song_genres : List SongGenre
  album_genres : List AlbumGenre
deriving Repr, DecidableEq

/-- The empty database. -/
def DB.empty : DB := ⟨[], [], [], [], [], [], []⟩

/-! ### Referential integrity

Modelled from the spec: `music_database.sql` (not in the snapshot)
declares `albums.artist_id → artists.id` and a pair of foreign keys on
each association table; the per-request connection runs
`PRAGMA foreign_keys = ON` (app.py), so with no `ON DELETE` action a
parent row still referenced by a child cannot be deleted, and an insert
with a dangling reference fails with `sqlite3.IntegrityError`.
-/

/-- Is the artist still referenced by an album row? -/
def artistReferenced (db : DB) (aid : Int) : Bool :=
  db.albums.any (fun al => al.artist_id = aid)

/-- Is the album still referenced by an association row? -/
def albumReferenced (db : DB) (alid : Int) : Bool :=
  db.album_songs.any (fun r => r.album_id = alid) ||
  db.album_genres.any (fun r => r.album_id = alid)

/-- Is the song still referenced by an association row? -/
def songReferenced (db : DB) (sid : Int) : Bool :=
  db.album_songs.any (fun r => r.song_id = sid) ||
  db.song_genres.any (fun r => r.song_id = sid)

/-- Is the genre still referenced by an association row? -/
def genreReferenced (db : DB) (gid : Int) : Bool :=
  db.song_genres.any (fun r => r.genre_id = gid) ||
  db.album_genres.any (fun r => r.genre_id = gid)

/-- The text of the error SQLite raises on a foreign-key violation. -/
def fkErrorMsg : String := "FOREIGN KEY constraint failed"

/-! ### Request/response plumbing shared by the handlers -/

/-- A flash message with its category, as produced by Flask `flash`. -/
structure Flash where
  msg : String
  category : String
deriving Repr, DecidableEq

/-- The handler's outward behaviour: a redirect to an endpoint
(`url_for` target) or a re-rendered template. -/
inductive Resp where
  | redirect (target : String)
  | page (tmpl : String)
deriving Repr, DecidableEq

/-- Result of running one handler: the database after the request, was
`commit()` reached, the flash messages emitted, and the response. -/
structure HOut where
  db : DB
  committed : Bool
  flashes : List Flash
  resp : Resp
deriving Repr, DecidableEq

/-- The authenticated principal (Flask-Login `User`): its `id` is the
username stored in the signed session cookie. -/
structure User where
  id : String
deriving Repr, DecidableEq

/-- Hard-coded credential store of auth.py: username → plain password. -/
def USERS : List (String × String) := [("sandro63", "sandro63"), ("guest", "guest")]

/-- The designated superuser username (auth.py). -/
def SUPERUSER : String := "sandro63"

/-- Embedding of `User.is_superuser` (auth.py). -/
def User.is_superuser (u : User) : Bool := u.id = SUPERUSER

/-- Embedding of the credential check in `login` (auth.py): the
submitted username is stripped, the password is not; success iff the
stripped username is a key of `USERS` whose stored password equals the
submitted one character for character. -/
def login_check (username password : String) : Bool :=
  match USERS.lookup (pyStrip username) with
  | some pw => pw == password
  | none => false

/-- Request context: the `Referer` header as seen by `request.referrer`
(absent when the header is missing). -/
structure Ctx where
  referrer : Option String
deriving Repr, DecidableEq

/-- Python `request.referrer or url_for("home.index")`: an absent or
empty (falsy) referrer falls back to the home endpoint. -/
def refOrHome (r : Option String) : String :=
  match r with
  | some s => if s = "" then "home.index" else s
  | none => "home.index"

/-- Embedding of the `superuser_required` decorator (auth.py): if the
authenticated principal is not the superuser, flash a warning and
redirect to the referrer (or home) with the database untouched;
otherwise run the wrapped handler. -/
def superuser_required {α : Type} (f : User → DB → Ctx → α → HOut) :
    User → DB → Ctx → α → HOut :=
  fun u db ctx x =>
    if u.is_superuser then f u db ctx x
    else
      { db := db, committed := false,
        flashes := [⟨"Only the superuser (sandro63) can delete records.", "danger"⟩],
        resp := .redirect (refOrHome ctx.referrer) }

/-- Python `value.strip() or None` used for the optional form fields:
a stripped-empty value becomes `None`, anything else is kept stripped. -/
def orNone (s : String) : Option String :=
  if pyStrip s = "" then none else some (pyStrip s)

/-! ### Delete handlers (superuser gated)

Each follows the same shape as the Python route: fetch the row for its
display name, report not-found, otherwise attempt the `DELETE` and
catch the integrity error, committing only on success.
-/

/-- Embedding of `delete` in routes/artists.py (inside its gate). -/
def artists_delete_inner : User → DB → Ctx → Int → HOut :=
  fun _ db _ artist_id =>
    match db.artists.find? (fun a => a.id = artist_id) with
    | none =>
      ⟨db, false, [⟨"Artist not found.", "danger"⟩], .redirect "artists.index"⟩
    | some a =>
      if artistReferenced db artist_id then
        ⟨db, false, [⟨"Cannot delete: " ++ fkErrorMsg, "danger"⟩], .redirect "artists.index"⟩
      else
        ⟨{ db with artists := db.artists.filter (fun r => !(r.id = artist_id)) },
          true, [⟨"Artist '" ++ a.name ++ "' deleted.", "success"⟩], .redirect "artists.index"⟩

/-- The full `delete` route of routes/artists.py, behind `superuser_required`. -/
def artists_delete : User → DB → Ctx → Int → HOut :=
  superuser_required artists_delete_inner

/-- Embedding of `delete` in routes/albums.py (inside its gate). -/
def albums_delete_inner : User → DB → Ctx → Int → HOut :=
  fun _ db _ album_id =>
    match db.albums.find? (fun a => a.id = album_id) with
    | none =>
      ⟨db, false, [⟨"Album not found.", "danger"⟩], .redirect "albums.index"⟩
    | some a =>
      if albumReferenced db album_id then
        ⟨db, false, [⟨"Cannot delete: " ++ fkErrorMsg, "danger"⟩], .redirect "albums.index"⟩
      else
        ⟨{ db with albums := db.albums.filter (fun r => !(r.id = album_id)) },
          true, [⟨"Album '" ++ a.title ++ "' deleted.", "success"⟩], .redirect "albums.index"⟩

/-- The full `delete` route of routes/albums.py, behind `superuser_required`. -/
def albums_delete : User → DB → Ctx → Int → HOut :=
  superuser_required albums_delete_inner

/-- Embedding of `delete` in routes/songs.py (inside its gate). -/
def songs_delete_inner : User → DB → Ctx → Int → HOut :=
  fun _ db _ song_id =>
    match db.songs.find? (fun a => a.id = song_id) with
    | none =>
      ⟨db, false, [⟨"Song not found.", "danger"⟩], .redirect "songs.index"⟩
    | some a =>
      if songReferenced db song_id then
        ⟨db, false, [⟨"Cannot delete: " ++ fkErrorMsg, "danger"⟩], .redirect "songs.index"⟩
      else
        ⟨{ db with songs := db.songs.filter (fun r => !(r.id = song_id)) },
          true, [⟨"Song '" ++ a.title ++ "' deleted.", "success"⟩], .redirect "songs.index"⟩

/-- The full `delete` route of routes/songs.py, behind `superuser_required`. -/
def songs_delete : User → DB → Ctx → Int → HOut :=
  superuser_required songs_delete_inner

/-- Embedding of `delete` in routes/genres.py (inside its gate). -/
def genres_delete_inner : User → DB → Ctx → Int → HOut :=
  fun _ db _ genre_id =>
    match db.genres.find? (fun a => a.id = genre_id) with
    | none =>
      ⟨db, false, [⟨"Genre not found.", "danger"⟩], .redirect "genres.index"⟩
    | some a =>
      if genreReferenced db genre_id then
        ⟨db, false, [⟨"Cannot delete: " ++ fkErrorMsg, "danger"⟩], .redirect "genres.index"⟩
      else
        ⟨{ db with genres := db.genres.filter (fun r => !(r.id = genre_id)) },
          true, [⟨"Genre '" ++ a.name ++ "' deleted.", "success"⟩], .redirect "genres.index"⟩

/-- The full `delete` route of routes/genres.py, behind `superuser_required`. -/
def genres_delete : User → DB → Ctx → Int → HOut :=
  superuser_required genres_delete_inner

/-! ### Create / edit handlers used by the claims -/

/-- The POSTed form of the song create/edit routes. -/
structure SongForm where
  title : String
  duration : String
deriving Repr, DecidableEq

/-- Embedding of the POST branch of `create` in routes/songs.py.
`new_id` models the rowid SQLite assigns to the inserted row. -/
def songs_create (db : DB) (form : SongForm) (new_id : Int) : HOut :=
  let title := pyStrip form.title
  let duration := mmss_to_seconds form.duration
  if title = "" then
    ⟨db, false, [⟨"Song title is required.", "danger"⟩], .page "songs/form.html"⟩
  else
    ⟨{ db with songs := db.songs ++ [⟨new_id, title, duration⟩] },
      true, [⟨"Song '" ++ title ++ "' created.", "success"⟩], .redirect "songs.index"⟩

/-- Embedding of the POST branch of `edit` in routes/songs.py. -/
def songs_edit (db : DB) (song_id : Int) (form : SongForm) : HOut :=
  match db.songs.find? (fun s => s.id = song_id) with
  | none =>
    ⟨db, false, [⟨"Song not found.", "danger"⟩], .redirect "songs.index"⟩
  | some _ =>
    let title := pyStrip form.title
    let duration := mmss_to_seconds form.duration
    if title = "" then
      ⟨db, false, [⟨"Song title is required.", "danger"⟩], .page "songs/form.html"⟩
    else
      ⟨{ db with songs := (db.songs.map
          (fun s => if s.id = song_id then ⟨s.id, title, duration⟩ else s)) },
        true, [⟨"Song '" ++ title ++ "' updated.", "success"⟩], .redirect "songs.index"⟩

/-- The POSTed form of the artist create/edit routes. -/
structure ArtistForm where
  name : String
  bio : String
deriving Repr, DecidableEq

/-- Embedding of the POST branch of `create` in routes/artists.py:
`bio` is `request.form.get("bio", "").strip() or None`. -/
def artists_create (db : DB) (form : ArtistForm) (new_id : Int) : HOut :=
  let name := pyStrip form.name
  let bio := orNone form.bio
  if name = "" then
    ⟨db, false, [⟨"Artist name is required.", "danger"⟩], .page "artists/form.html"⟩
  else
    ⟨{ db with artists := db.artists ++ [⟨new_id, name, bio⟩] },
      true, [⟨"Artist '" ++ name ++ "' created.", "success"⟩], .redirect "artists.index"⟩

/-- Embedding of the POST branch of `edit` in routes/artists.py:
report not-found, validate `name` non-empty, then full-row update with
`bio = request.form.get("bio", "").strip() or None`, committed. -/
def artists_edit (db : DB) (artist_id : Int) (form : ArtistForm) : HOut :=
  match db.artists.find? (fun a => a.id = artist_id) with
  | none =>
    ⟨db, false, [⟨"Artist not found.", "danger"⟩], .redirect "artists.index"⟩
  | some _ =>
    let name := pyStrip form.name
    let bio := orNone form.bio
    if name = "" then
      ⟨db, false, [⟨"Artist name is required.", "danger"⟩], .page "artists/form.html"⟩
    else
      ⟨{ db with artists := (db.artists.map
          (fun a => if a.id = artist_id then ⟨a.id, name, bio⟩ else a)) },
        true, [⟨"Artist '" ++ name ++ "' updated.", "success"⟩], .redirect "artists.index"⟩

/-- The POSTed form of the album create/edit routes; every field arrives
as a string. -/
structure AlbumForm where
  title : String
  artist_id : String
  release_year : String
deriving Repr, DecidableEq

/-- Embedding of the POST branch of `create` in routes/albums.py:
validates `title` and `artist_id` non-empty, converts `artist_id` with
`int(...)` (a `ValueError` is caught by the handler's
`except Exception`), and the insert fails with an integrity error when
the referenced artist does not exist. -/
def albums_create (db : DB) (form : AlbumForm) (new_id : Int) : HOut :=
  let title := pyStrip form.title
  let artist_id := pyStrip form.artist_id
  let release_year := orNone form.release_year
  if title = "" || artist_id = "" then
    ⟨db, false, [⟨"Title and artist are required.", "danger"⟩], .page "albums/form.html"⟩
  else
    match pyInt artist_id with
    | none =>
      ⟨db, false, [⟨"Error: invalid literal for int()", "danger"⟩], .page "albums/form.html"⟩
    | some aid =>
      if db.artists.any (fun a => a.id = aid) then
        ⟨{ db with albums := db.albums ++ [⟨new_id, title, aid, release_year⟩] },
          true, [⟨"Album '" ++ title ++ "' created.", "success"⟩], .redirect "albums.index"⟩
      else
        ⟨db, false, [⟨"Error: " ++ fkErrorMsg, "danger"⟩], .page "albums/form.html"⟩

/-- Embedding of the POST branch of `edit` in routes/albums.py. -/
def albums_edit (db : DB) (album_id : Int) (form : AlbumForm) : HOut :=
  match db.albums.find? (fun a => a.id = album_id) with
  | none =>
    ⟨db, false, [⟨"Album not found.", "danger"⟩], .redirect "albums.index"⟩
  | some _ =>
    let title := pyStrip form.title
    let artist_id := pyStrip form.artist_id
    let release_year := orNone form.release_year
    if title = "" || artist_id = "" then
      ⟨db, false, [⟨"Title and artist are required.", "danger"⟩], .page "albums/form.html"⟩
    else
      match pyInt artist_id with
      | none =>
        ⟨db, false, [⟨"Error: invalid literal for int()", "danger"⟩], .page "albums/form.html"⟩
      | some aid =>
        if db.artists.any (fun a => a.id = aid) then
          ⟨{ db with albums := (db.albums.map
              (fun a => if a.id = album_id then ⟨a.id, title, aid, release_year⟩ else a)) },
            true, [⟨"Album '" ++ title ++ "' updated.", "success"⟩], .redirect "albums.index"⟩
        else
          ⟨db, false, [⟨"Error: " ++ fkErrorMsg, "danger"⟩], .page "albums/form.html"⟩

/-! ### AlbumSong listing (routes/album_songs.py) -/

/-- One row of the three-table join produced by `index` in
routes/album_songs.py. -/
structure ASRow where
  album_id : Int
  album_title : String
  song_id : Int
  song_title : String
deriving Repr, DecidableEq

/-- The unordered three-table join: one output row per `album_songs`
row and matching album/song pair. -/
def album_songs_join (db : DB) : List ASRow :=
  db.album_songs.flatMap (fun als =>
    (db.albums.filter (fun al => al.id = als.album_id)).flatMap (fun al =>
      (db.songs.filter (fun s => s.id = als.song_id)).map (fun s =>
        ⟨al.id, al.title, s.id, s.title⟩)))

/-- The `ORDER BY al.title, s.title` comparison: lexicographic on
(album title, song title) under SQLite's byte-wise text order, which
for UTF-8 coincides with the codepoint order of `String`. -/
def asRowLe (a b : ASRow) : Bool :=
  decide (a.album_title < b.album_title) ||
    (decide (a.album_title = b.album_title) && decide (a.song_title ≤ b.song_title))

/-- Embedding of the association listing query of `index` in
routes/album_songs.py: the three-table join ordered by album title then
song title. -/
def album_songs_index (db : DB) : List ASRow :=
  (album_songs_join db).mergeSort asRowLe

/-! ### Schema/seed initializer (app.py `_init_db`) -/

/-- Abstract storage contents at the database path: the schema together
with its rows, as produced by running the init script. -/
structure Storage where
  db : DB
  seeded : Bool
deriving Repr, DecidableEq

/-- Embedding of `_init_db` (app.py): if no storage exists at the path,
create it and run the combined schema-and-seed script on the fresh
storage; otherwise do nothing.  The script itself
(`music_database.sql`, not in the snapshot) is passed as a function. -/
def _init_db (script : Storage → Storage) : Option Storage → Option Storage
  | none => some (script ⟨DB.empty, false⟩)
  | some st => some st

/-! ### Exception-explicit duration parser

To settle totality of `mmss_to_seconds` we re-embed it with the Python
exception flow made explicit: `int(...)` either returns a value or
raises `ValueError`, and the handler's `try/except ValueError` is the
only catch.  An escaping exception would appear as an `Except.error`.
-/

/-- The only exception the helper's body can raise: `ValueError`
from `int(...)`. -/
inductive PyExn where
  | valueError
deriving Repr, DecidableEq

/-- `int(...)` with its exception made explicit. -/
def int_exc (l : List Char) : Except PyExn Int :=
  match pyIntList l with
  | some n => .ok n
  | none => .error .valueError

/-- Embedding of `mmss_to_seconds` with the exception flow explicit:
both `int` calls of the `':'` branch and the single `int` call of the
raw branch sit inside `try/except ValueError: return None`; every other
operation (`strip`, `split`, `in`) cannot raise. -/
def mmss_to_secondsE (mmss : String) : Except PyExn (Option Int) :=
  if mmss.data = [] then .ok none
  else
    let t := pyStripList mmss.data
    if t.elem ':' then
      match int_exc (splitFirst t ':').1 with
      | .error .valueError => .ok none
      | .ok m =>
        match int_exc (splitFirst t ':').2 with
        | .error .valueError => .ok none
        | .ok s => .ok (some (m * 60 + s))
    else
      match int_exc t with
      | .error .valueError => .ok none
      | .ok v => .ok (some v)

/-! ### Spec-side duration parser

Stated from §4.5 of the spec, word for word: empty/absent input is
absent; input containing the separator is split into a minutes and a
seconds component, each parsed as an integer, either failure giving
absent; input without a separator is parsed as a raw integer-seconds
count.  Unlike the code it does not pre-strip the whole string before
testing for and splitting at the separator.
-/

/-- `ToSeconds` as the spec words it (§4.5), for comparison with the
code's `mmss_to_seconds`. -/
def ToSeconds_spec (s : String) : Option Int :=
  if s.data = [] then none
  else if s.data.elem ':' then
    match pyIntList (splitFirst s.data ':').1, pyIntList (splitFirst s.data ':').2 with
    | some m, some sec => some (m * 60 + sec)
    | _, _ => none
  else pyIntList s.data

/-! ## Lemmas: decimal rendering and parsing -/

theorem digitsToNat_append (l1 l2 : List Char) (acc : Nat) :
    digitsToNat (l1 ++ l2) acc = digitsToNat l2 (digitsToNat l1 acc) := by
  induction l1 generalizing acc with
  | nil => rfl
  | cons c cs ih => simp [digitsToNat, ih]

theorem natToDigitsAux_shape {fuel n : Nat} (h : n < fuel) :
    ∀ c ∈ natToDigitsAux fuel n, ∃ d, d < 10 ∧ c = digitChar d := by
  induction fuel generalizing n with
  | zero => omega
  | succ f ih =>
    intro c hc
    rw [natToDigitsAux] at hc
    by_cases hn : n < 10
    · simp [hn] at hc
      exact ⟨n, hn, hc⟩
    · simp [hn, List.mem_append] at hc
      rcases hc with hc | hc
      · exact ih (by omega : n / 10 < f) c hc
      · exact ⟨n % 10, by omega, hc⟩

theorem natToDigitsAux_ne_nil {fuel n : Nat} (h : 0 < fuel) :
    natToDigitsAux fuel n ≠ [] := by
  cases fuel with
  | zero => omega
  | succ f =>
    rw [natToDigitsAux]
    by_cases hn : n < 10 <;> simp [hn]

theorem natToDigitsAux_val {fuel n : Nat} (h : n < fuel) (acc : Nat) :
    digitsToNat (natToDigitsAux fuel n) acc =
      acc * 10 ^ (natToDigitsAux fuel n).length + n := by
  induction fuel generalizing n acc with
  | zero => omega
  | succ f ih =>
    rw [natToDigitsAux]
    by_cases hn : n < 10
    · have hd : charToDigit (digitChar n) = n := by
        have : ∀ d < 10, charToDigit (digitChar d) = d := by decide
        exact this n hn
      simp [hn, digitsToNat, hd]
    · have hlt : n / 10 < f := by
        have h1 : n / 10 < n := Nat.div_lt_self (by omega) (by omega)
        omega
      simp only [if_neg hn]
      rw [digitsToNat_append]
      have hd : charToDigit (digitChar (n % 10)) = n % 10 := by
        have : ∀ d < 10, charToDigit (digitChar d) = d := by decide
        exact this _ (by omega)
      rw [List.length_append]
      simp [digitsToNat, hd, ih hlt]
      rw [Nat.pow_succ]
      have hmod := Nat.div_add_mod n 10
      ring_nf
      omega

theorem natToDigits_shape (n : Nat) :
    ∀ c ∈ natToDigits n, ∃ d, d < 10 ∧ c = digitChar d :=
  natToDigitsAux_shape (Nat.lt_succ_self n)

theorem natToDigits_ne_nil (n : Nat) : natToDigits n ≠ [] :=
  natToDigitsAux_ne_nil (Nat.succ_pos n)

theorem natToDigits_val (n : Nat) : digitsToNat (natToDigits n) 0 = n := by
  have := natToDigitsAux_val (Nat.lt_succ_self n) 0
  simpa [natToDigits] using this

theorem digitChar_facts :
    ∀ d < 10, isDigit (digitChar d) = true ∧ isPySpace (digitChar d) = false ∧
      digitChar d ≠ ':' ∧ digitChar d ≠ '-' ∧ digitChar d ≠ '+' := by decide

theorem pyIntCore_of_digits {l : List Char}
    (h : ∀ c ∈ l, ∃ d, d < 10 ∧ c = digitChar d) (hne : l ≠ []) :
    pyIntCore l = some ((digitsToNat l 0 : Nat) : Int) := by
  match l, hne with
  | c :: rest, _ =>
    obtain ⟨d, hd, rfl⟩ := h c (List.mem_cons_self _ _)
    have hfacts := digitChar_facts d hd
    have hdig : isDigits (digitChar d :: rest) = true := by
      simp only [isDigits, List.isEmpty_cons, Bool.not_false, Bool.true_and,
        List.all_eq_true]
      intro c hc
      obtain ⟨d', hd', rfl⟩ := h c hc
      exact (digitChar_facts d' hd').1
    rw [pyIntCore]
    simp [hfacts.2.2.2.1, hfacts.2.2.2.2, hdig]

/-! ## Lemmas: stripping -/

theorem dropWhile_app_all {p : Char → Bool} {w : List Char}
    (h : ∀ c ∈ w, p c = true) (l : List Char) :
    (w ++ l).dropWhile p = l.dropWhile p := by
  induction w with
  | nil => rfl
  | cons c cs ih =>
    simp only [List.cons_append, List.dropWhile_cons_of_pos (h c (List.mem_cons_self _ _))]
    exact ih (fun c hc => h c (List.mem_cons_of_mem _ hc))

theorem dropWhile_eq_nil_of_all {p : Char → Bool} {w : List Char}
    (h : ∀ c ∈ w, p c = true) : w.dropWhile p = [] := by
  have := dropWhile_app_all h ([] : List Char)
  simpa using this

theorem all_of_dropWhile_eq_nil {p : Char → Bool} {w : List Char}
    (h : w.dropWhile p = []) : ∀ c ∈ w, p c = true := by
  induction w with
  | nil => simp
  | cons c cs ih =>
    by_cases hc : p c
    · rw [List.dropWhile_cons_of_pos hc] at h
      intro x hx
      rcases List.mem_cons.1 hx with rfl | hx
      · exact hc
      · exact ih h x hx
    · rw [List.dropWhile_cons_of_neg hc] at h
      exact absurd h (by simp)

theorem head_not_of_dropWhile {p : Char → Bool} {w y : List Char} {c : Char}
    (h : w.dropWhile p = c :: y) : p c = false := by
  induction w with
  | nil => exact absurd h (by simp)
  | cons a as ih =>
    by_cases ha : p a
    · rw [List.dropWhile_cons_of_pos ha] at h
      exact ih h
    · rw [List.dropWhile_cons_of_neg ha] at h
      cases h
      exact Bool.eq_false_iff.2 ha

theorem mem_of_takeWhile {p : Char → Bool} {w : List Char} {c : Char}
    (h : c ∈ w.takeWhile p) : p c = true := by
  induction w with
  | nil => exact absurd h (by simp)
  | cons a as ih =>
    by_cases ha : p a
    · rw [List.takeWhile_cons_of_pos ha] at h
      rcases List.mem_cons.1 h with rfl | h
      · exact ha
      · exact ih h
    · rw [List.takeWhile_cons_of_neg ha] at h
      exact absurd h (by simp)

/-- Every character list splits as spaces, its stripped core, spaces. -/
theorem strip_decomp (l : List Char) :
    ∃ w1 w2, l = w1 ++ pyStripList l ++ w2 ∧
      (∀ c ∈ w1, isPySpace c = true) ∧ (∀ c ∈ w2, isPySpace c = true) := by
  refine ⟨l.takeWhile isPySpace,
    ((l.dropWhile isPySpace).reverse.takeWhile isPySpace).reverse, ?_, ?_, ?_⟩
  · have h2 : l.dropWhile isPySpace =
        pyStripList l ++ ((l.dropWhile isPySpace).reverse.takeWhile isPySpace).reverse := by
      unfold pyStripList
      have h3 := congrArg List.reverse (List.takeWhile_append_dropWhile
        (p := isPySpace) (l := (l.dropWhile isPySpace).reverse))
      rw [List.reverse_append, List.reverse_reverse] at h3
      exact h3.symm
    calc l = l.takeWhile isPySpace ++ l.dropWhile isPySpace :=
          (List.takeWhile_append_dropWhile _ _).symm
      _ = l.takeWhile isPySpace ++ (pyStripList l ++
            ((l.dropWhile isPySpace).reverse.takeWhile isPySpace).reverse) := by rw [← h2]
      _ = l.takeWhile isPySpace ++ pyStripList l ++
            ((l.dropWhile isPySpace).reverse.takeWhile isPySpace).reverse := by
          rw [List.append_assoc]
  · exact fun c hc => mem_of_takeWhile hc
  · intro c hc
    rw [List.mem_reverse] at hc
    exact mem_of_takeWhile hc

theorem pyStrip_app_left {w : List Char} (h : ∀ c ∈ w, isPySpace c = true)
    (l : List Char) : pyStripList (w ++ l) = pyStripList l := by
  unfold pyStripList
  rw [dropWhile_app_all h]

theorem dropWhile_app_of_ne {p : Char → Bool} {x : List Char}
    (hne : x.dropWhile p ≠ []) (y : List Char) :
    (x ++ y).dropWhile p = x.dropWhile p ++ y := by
  induction x with
  | nil => simp at hne
  | cons a as ih =>
    by_cases ha : p a
    · rw [List.dropWhile_cons_of_pos ha] at hne
      simp only [List.cons_append, List.dropWhile_cons_of_pos ha]
      exact ih hne
    · simp only [List.cons_append, List.dropWhile_cons_of_neg ha]

theorem pyStrip_app_right {w : List Char} (h : ∀ c ∈ w, isPySpace c = true)
    (l : List Char) : pyStripList (l ++ w) = pyStripList l := by
  unfold pyStripList
  cases hd : l.dropWhile isPySpace with
  | nil =>
    have hall : ∀ c ∈ l, isPySpace c = true := all_of_dropWhile_eq_nil hd
    have hnil : (l ++ w).dropWhile isPySpace = [] := by
      rw [dropWhile_app_all hall]
      exact dropWhile_eq_nil_of_all h
    rw [hnil]
  | cons c y =>
    have hne : l.dropWhile isPySpace ≠ [] := by simp [hd]
    rw [dropWhile_app_of_ne hne, hd, List.reverse_append,
      dropWhile_app_all (by intro c hc; rw [List.mem_reverse] at hc; exact h c hc)]

theorem pyStrip_idem (l : List Char) :
    pyStripList (pyStripList l) = pyStripList l := by
  obtain ⟨w1, w2, hdec, h1, h2⟩ := strip_decomp l
  conv_rhs => rw [hdec]
  rw [List.append_assoc, pyStrip_app_left h1, pyStrip_app_right h2]

theorem dropWhile_eq_self_of_none {p : Char → Bool} {l : List Char}
    (h : ∀ c ∈ l, p c = false) : l.dropWhile p = l := by
  cases l with
  | nil => rfl
  | cons a as =>
    exact List.dropWhile_cons_of_neg (by simp [h a (List.mem_cons_self _ _)])

theorem pyStrip_eq_self {l : List Char} (h : ∀ c ∈ l, isPySpace c = false) :
    pyStripList l = l := by
  unfold pyStripList
  rw [dropWhile_eq_self_of_none h,
    dropWhile_eq_self_of_none (by intro c hc; rw [List.mem_reverse] at hc; exact h c hc),
    List.reverse_reverse]

theorem mem_pyStrip_iff {c : Char} (hc : isPySpace c = false) (l : List Char) :
    c ∈ pyStripList l ↔ c ∈ l := by
  obtain ⟨w1, w2, hdec, h1, h2⟩ := strip_decomp l
  constructor
  · intro h
    rw [hdec, List.mem_append, List.mem_append]
    exact Or.inl (Or.inr h)
  · intro h
    rw [hdec, List.mem_append, List.mem_append] at h
    rcases h with (h | h) | h
    · exact absurd (h1 c h) (by simp [hc])
    · exact h
    · exact absurd (h2 c h) (by simp [hc])

theorem takeWhile_app_sep {a : List Char} {sep : Char} (h : sep ∉ a) (b : List Char) :
    (a ++ sep :: b).takeWhile (fun x => !(x = sep)) = a := by
  induction a with
  | nil => simp
  | cons c cs ih =>
    have hcs : c ≠ sep := fun hcc => h (hcc ▸ List.mem_cons_self _ _)
    have hrest : sep ∉ cs := fun hm => h (List.mem_cons_of_mem _ hm)
    simp [List.takeWhile_cons, hcs, ih hrest]

theorem dropWhile_app_sep {a : List Char} {sep : Char} (h : sep ∉ a) (b : List Char) :
    (a ++ sep :: b).dropWhile (fun x => !(x = sep)) = sep :: b := by
  induction a with
  | nil => simp
  | cons c cs ih =>
    have hcs : c ≠ sep := fun hcc => h (hcc ▸ List.mem_cons_self _ _)
    have hrest : sep ∉ cs := fun hm => h (List.mem_cons_of_mem _ hm)
    simp [List.dropWhile_cons, hcs, ih hrest]

theorem splitFirst_app {a : List Char} {sep : Char} (h : sep ∉ a) (b : List Char) :
    splitFirst (a ++ sep :: b) sep = (a, b) := by
  unfold splitFirst
  rw [takeWhile_app_sep h, dropWhile_app_sep h]
  rfl

/-- A list containing the separator splits as
`before ++ sep :: after` at the first occurrence. -/
theorem splitFirst_decomp {t : List Char} {sep : Char} (h : sep ∈ t) :
    t = (splitFirst t sep).1 ++ sep :: (splitFirst t sep).2 ∧
      sep ∉ (splitFirst t sep).1 := by
  have hne : t.dropWhile (fun x => !(x = sep)) ≠ [] := by
    intro hnil
    have := all_of_dropWhile_eq_nil hnil sep h
    simp at this
  constructor
  · cases hcy : t.dropWhile (fun x => !(x = sep)) with
    | nil => exact absurd hcy hne
    | cons c y =>
      have hcsep : c = sep := by simpa using head_not_of_dropWhile hcy
      rw [hcsep] at hcy
      unfold splitFirst
      rw [hcy]
      simp only [List.tail_cons]
      conv_lhs => rw [← List.takeWhile_append_dropWhile (p := fun x => !(x = sep)) (l := t)]
      rw [hcy]
  · intro hmem
    have := mem_of_takeWhile (p := fun x => !(x = sep)) hmem
    simp at this

/-! ## Lemmas: `int()` on rendered numerals -/

theorem pyIntList_natToDigits (n : Nat) :
    pyIntList (natToDigits n) = some ((n : Nat) : Int) := by
  unfold pyIntList
  have hshape := natToDigits_shape n
  have hnosp : ∀ c ∈ natToDigits n, isPySpace c = false := by
    intro c hc
    obtain ⟨d, hd, rfl⟩ := hshape c hc
    exact (digitChar_facts d hd).2.1
  rw [pyStrip_eq_self hnosp, pyIntCore_of_digits hshape (natToDigits_ne_nil n),
    natToDigits_val]

theorem pad2_shape (s : Nat) :
    ∀ c ∈ pad2 s, ∃ d, d < 10 ∧ c = digitChar d := by
  unfold pad2
  by_cases hs : s < 10
  · rw [if_pos hs]
    intro c hc
    rcases List.mem_cons.1 hc with rfl | hc
    · exact ⟨0, by omega, rfl⟩
    · exact natToDigits_shape s c hc
  · rw [if_neg hs]
    exact natToDigits_shape s

theorem pyIntList_pad2 (s : Nat) : pyIntList (pad2 s) = some ((s : Nat) : Int) := by
  have hshape := pad2_shape s
  have hnosp : ∀ c ∈ pad2 s, isPySpace c = false := by
    intro c hc
    obtain ⟨d, hd, rfl⟩ := hshape c hc
    exact (digitChar_facts d hd).2.1
  have hne : pad2 s ≠ [] := by
    unfold pad2
    by_cases hs : s < 10
    · simp [hs]
    · simpa [hs] using natToDigits_ne_nil s
  unfold pyIntList
  rw [pyStrip_eq_self hnosp, pyIntCore_of_digits hshape hne]
  congr 1
  unfold pad2
  by_cases hs : s < 10
  · rw [if_pos hs]
    have h0 : charToDigit '0' = 0 := rfl
    simp [digitsToNat, h0, natToDigits_val]
  · rw [if_neg hs]
    simp [natToDigits_val]

theorem intToDigits_natCast (k : Nat) : intToDigits (k : Int) = natToDigits k := by
  unfold intToDigits
  rw [if_neg (by omega), Int.toNat_natCast]

/-! ## Claim theorems -/

/-- C2: the duration codec round-trips: for every non-negative number of
seconds `n`, `mmss_to_seconds (seconds_to_mmss n) = n`; in particular
`seconds_to_mmss 225 = "3:45"`, `mmss_to_seconds "3:45" = 225`, and
`mmss_to_seconds "bad:input"` is `none`. -/
theorem duration_roundtrip :
    (∀ n : Nat, mmss_to_seconds (seconds_to_mmss (some (n : Int))) = some (n : Int)) ∧
    seconds_to_mmss (some 225) = "3:45" ∧
    mmss_to_seconds "3:45" = some 225 ∧
    mmss_to_seconds "bad:input" = none := by
  refine ⟨?_, by decide, by decide, by decide⟩
  intro n
  have hm : Int.fdiv (n : Int) 60 = ((n / 60 : Nat) : Int) := by
    exact_mod_cast (Int.ofNat_fdiv n 60).symm
  have hsm : Int.fmod (n : Int) 60 = ((n % 60 : Nat) : Int) := by
    exact_mod_cast (Int.ofNat_fmod n 60).symm
  have hdisp : seconds_to_mmss (some (n : Int)) =
      ⟨natToDigits (n / 60) ++ ':' :: pad2 (n % 60)⟩ := by
    show (⟨intToDigits (Int.fdiv (n : Int) 60) ++
        ':' :: pad2 (Int.fmod (n : Int) 60).toNat⟩ : String) = _
    rw [hm, hsm, intToDigits_natCast, Int.toNat_natCast]
  rw [hdisp]
  have hshape1 := natToDigits_shape (n / 60)
  have hshape2 := pad2_shape (n % 60)
  have hnosp : ∀ c ∈ natToDigits (n / 60) ++ ':' :: pad2 (n % 60),
      isPySpace c = false := by
    intro c hc
    rw [List.mem_append, List.mem_cons] at hc
    rcases hc with hc | rfl | hc
    · obtain ⟨d, hd, rfl⟩ := hshape1 c hc
      exact (digitChar_facts d hd).2.1
    · decide
    · obtain ⟨d, hd, rfl⟩ := hshape2 c hc
      exact (digitChar_facts d hd).2.1
  have hne : natToDigits (n / 60) ++ ':' :: pad2 (n % 60) ≠ [] := by simp
  have hmem : ':' ∈ natToDigits (n / 60) ++ ':' :: pad2 (n % 60) :=
    List.mem_append_right _ (List.mem_cons_self _ _)
  have hstrip := pyStrip_eq_self hnosp
  have hsep : ':' ∉ natToDigits (n / 60) := by
    intro hc
    obtain ⟨d, hd, he⟩ := hshape1 _ hc
    exact (digitChar_facts d hd).2.2.1 he.symm
  have hsplit : splitFirst (natToDigits (n / 60) ++ ':' :: pad2 (n % 60)) ':' =
      (natToDigits (n / 60), pad2 (n % 60)) := splitFirst_app hsep _
  have helem : (natToDigits (n / 60) ++ ':' :: pad2 (n % 60)).elem ':' = true :=
    List.elem_iff.mpr hmem
  have hdata : (String.mk (natToDigits (n / 60) ++ ':' :: pad2 (n % 60))).data =
      natToDigits (n / 60) ++ ':' :: pad2 (n % 60) := rfl
  simp only [mmss_to_seconds, hdata, hstrip]
  rw [if_neg hne, helem, if_pos rfl, hsplit]
  rw [pyIntList_natToDigits, pyIntList_pad2]
  show some (((n / 60 : Nat) : Int) * 60 + ((n % 60 : Nat) : Int)) = some (n : Int)
  have harith : ((n / 60 : Nat) : Int) * 60 + ((n % 60 : Nat) : Int) = (n : Int) := by
    omega
  rw [harith]

theorem elem_eq_false_of_not_mem {c : Char} {l : List Char} (h : c ∉ l) :
    l.elem c = false := by
  cases he : l.elem c with
  | false => rfl
  | true => exact absurd (List.elem_iff.mp he) h

/-- C3: `mmss_to_seconds` behaves exactly as §4.5 of the spec words it:
empty input is absent; input containing `':'` splits into a minutes and
a seconds component, each parsed as a Python integer, the result being
`minutes*60 + seconds` with absent returned if either parse fails;
input without a separator is parsed as a raw integer-seconds count,
failure again giving absent. -/
theorem toSeconds_matches_spec : ∀ s : String, mmss_to_seconds s = ToSeconds_spec s := by
  intro s
  by_cases hnil : s.data = []
  · simp only [mmss_to_seconds, ToSeconds_spec, if_pos hnil]
  · simp only [mmss_to_seconds, ToSeconds_spec, if_neg hnil]
    obtain ⟨w1, w2, hdec, h1, h2⟩ := strip_decomp s.data
    have hmem_iff : (':' ∈ pyStripList s.data) ↔ (':' ∈ s.data) :=
      mem_pyStrip_iff (by decide) s.data
    by_cases hc : ':' ∈ s.data
    · have helem_spec : s.data.elem ':' = true := List.elem_iff.mpr hc
      have hmem_code : ':' ∈ pyStripList s.data := hmem_iff.mpr hc
      have helem_code : (pyStripList s.data).elem ':' = true :=
        List.elem_iff.mpr hmem_code
      rw [helem_spec, helem_code, if_pos rfl, if_pos rfl]
      obtain ⟨hteq, hnotin⟩ := splitFirst_decomp hmem_code
      have hdata_split : s.data =
          (w1 ++ (splitFirst (pyStripList s.data) ':').1) ++
            ':' :: ((splitFirst (pyStripList s.data) ':').2 ++ w2) := by
        conv_lhs => rw [hdec]
        conv_lhs => rw [hteq]
        simp [List.append_assoc]
      have hnotin_l : ':' ∉ w1 ++ (splitFirst (pyStripList s.data) ':').1 := by
        intro hm
        rcases List.mem_append.1 hm with hm | hm
        · exact absurd (h1 ':' hm) (by decide)
        · exact hnotin hm
      have hsplit_l : splitFirst s.data ':' =
          (w1 ++ (splitFirst (pyStripList s.data) ':').1,
            (splitFirst (pyStripList s.data) ':').2 ++ w2) := by
        conv_lhs => rw [hdata_split]
        exact splitFirst_app hnotin_l _
      have hint1 : pyIntList (splitFirst s.data ':').1 =
          pyIntList (splitFirst (pyStripList s.data) ':').1 := by
        rw [hsplit_l]
        unfold pyIntList
        rw [pyStrip_app_left h1]
      have hint2 : pyIntList (splitFirst s.data ':').2 =
          pyIntList (splitFirst (pyStripList s.data) ':').2 := by
        rw [hsplit_l]
        unfold pyIntList
        rw [pyStrip_app_right h2]
      rw [hint1, hint2]
    · have helem_spec : s.data.elem ':' = false := elem_eq_false_of_not_mem hc
      have helem_code : (pyStripList s.data).elem ':' = false :=
        elem_eq_false_of_not_mem (fun hm => hc (hmem_iff.mp hm))
      rw [helem_spec, helem_code, if_neg (by simp), if_neg (by simp)]
      unfold pyIntList
      rw [pyStrip_idem]

/-- C8: `mmss_to_seconds` is total: re-embedding it with the Python
exception flow explicit, every string input yields `Except.ok` of
exactly the `Option Int` the plain embedding computes — no `ValueError`
escapes the helper and no other exception arises. -/
theorem toSeconds_total : ∀ s : String, mmss_to_secondsE s = .ok (mmss_to_seconds s) := by
  intro s
  simp only [mmss_to_secondsE, mmss_to_seconds]
  by_cases hnil : s.data = []
  · rw [if_pos hnil, if_pos hnil]
  · rw [if_neg hnil, if_neg hnil]
    cases helem : (pyStripList s.data).elem ':' with
    | true =>
      rw [if_pos rfl, if_pos rfl]
      unfold int_exc
      cases h1 : pyIntList (splitFirst (pyStripList s.data) ':').1 with
      | none => rfl
      | some m =>
        cases h2 : pyIntList (splitFirst (pyStripList s.data) ':').2 with
        | none => rfl
        | some k => rfl
    | false =>
      rw [if_neg (by simp), if_neg (by simp)]
      unfold int_exc
      cases h : pyIntList (pyStripList s.data) with
      | none => rfl
      | some v => rfl

/-- C4: for every authenticated principal that is not the superuser,
every operation behind the `superuser_required` gate performs no state
mutation, flashes a danger warning, and redirects to the referrer or
the home page; the superuser reaches the wrapped handler, and in
particular a superuser album delete with no blocking reference commits
the deletion. -/
theorem superuser_gate :
    (∀ (α : Type) (f : User → DB → Ctx → α → HOut) (u : User) (db : DB)
        (ctx : Ctx) (x : α),
      u.is_superuser = false →
      superuser_required f u db ctx x =
        ⟨db, false, [⟨"Only the superuser (sandro63) can delete records.", "danger"⟩],
          .redirect (refOrHome ctx.referrer)⟩) ∧
    (∀ (α : Type) (f : User → DB → Ctx → α → HOut) (u : User) (db : DB)
        (ctx : Ctx) (x : α),
      u.is_superuser = true →
      superuser_required f u db ctx x = f u db ctx x) ∧
    (∀ (u : User) (db : DB) (ctx : Ctx) (alid : Int) (al : Album),
      u.is_superuser = true →
      db.albums.find? (fun a => a.id = alid) = some al →
      albumReferenced db alid = false →
      albums_delete u db ctx alid =
        ⟨{ db with albums := db.albums.filter (fun r => !(r.id = alid)) }, true,
          [⟨"Album '" ++ al.title ++ "' deleted.", "success"⟩],
          .redirect "albums.index"⟩) := by
  refine ⟨?_, ?_, ?_⟩
  · intro α f u db ctx x hu
    unfold superuser_required
    rw [hu, if_neg (by simp)]
  · intro α f u db ctx x hu
    unfold superuser_required
    rw [hu, if_pos rfl]
  · intro u db ctx alid al hu hfind href
    unfold albums_delete superuser_required
    rw [hu, if_pos rfl]
    unfold albums_delete_inner
    simp only [hfind]
    rw [href, if_neg (by simp)]

/-- C4 witness: the gate blocks the guest on a concrete database and a
concrete wrapped handler, and the superuser delete of an unreferenced
album succeeds on a concrete database. -/
theorem superuser_gate_witness :
    superuser_required (fun _ db _ (_ : Int) => ⟨db, true, [], .redirect "x"⟩)
        ⟨"guest"⟩ ⟨[⟨1, "A", none⟩], [], [], [], [], [], []⟩ ⟨none⟩ 7 =
      ⟨⟨[⟨1, "A", none⟩], [], [], [], [], [], []⟩, false,
        [⟨"Only the superuser (sandro63) can delete records.", "danger"⟩],
        .redirect "home.index"⟩ ∧
    albums_delete ⟨"sandro63"⟩ ⟨[⟨1, "A", none⟩], [⟨2, "B", 1, none⟩], [], [], [], [], []⟩
        ⟨none⟩ 2 =
      ⟨⟨[⟨1, "A", none⟩], [], [], [], [], [], []⟩, true,
        [⟨"Album 'B' deleted.", "success"⟩], .redirect "albums.index"⟩ ∧
    superuser_required (fun _ db _ (_ : Int) => ⟨db, true, [], .redirect "x"⟩)
        ⟨"sandro63"⟩ ⟨[], [], [], [], [], [], []⟩ ⟨none⟩ 7 =
      ⟨⟨[], [], [], [], [], [], []⟩, true, [], .redirect "x"⟩ := by
  refine ⟨?_, ?_, ?_⟩
  · exact superuser_gate.1 Int (fun _ db _ _ => ⟨db, true, [], .redirect "x"⟩)
      ⟨"guest"⟩ ⟨[⟨1, "A", none⟩], [], [], [], [], [], []⟩ ⟨none⟩ 7 (by decide)
  · exact superuser_gate.2.2 ⟨"sandro63"⟩
      ⟨[⟨1, "A", none⟩], [⟨2, "B", 1, none⟩], [], [], [], [], []⟩ ⟨none⟩ 2
      ⟨2, "B", 1, none⟩ (by decide) (by decide) (by decide)
  · exact superuser_gate.2.1 Int (fun _ db _ _ => ⟨db, true, [], .redirect "x"⟩)
      ⟨"sandro63"⟩ ⟨[], [], [], [], [], [], []⟩ ⟨none⟩ 7 (by decide)

/-- C1: for each of Artist, Album, Song and Genre, deleting a row that
is still referenced by a dependent album or association row fails: the
handler returns the database unchanged (hence the targeted row and all
rows referencing it remain), the transaction is not committed, and a
non-fatal "Cannot delete" message is flashed instead of the error
propagating. -/
theorem delete_referenced_blocked :
    (∀ (u : User) (db : DB) (ctx : Ctx) (aid : Int) (a : Artist),
      u.is_superuser = true →
      db.artists.find? (fun r => r.id = aid) = some a →
      artistReferenced db aid = true →
      artists_delete u db ctx aid =
        ⟨db, false, [⟨"Cannot delete: " ++ fkErrorMsg, "danger"⟩],
          .redirect "artists.index"⟩) ∧
    (∀ (u : User) (db : DB) (ctx : Ctx) (alid : Int) (al : Album),
      u.is_superuser = true →
      db.albums.find? (fun r => r.id = alid) = some al →
      albumReferenced db alid = true →
      albums_delete u db ctx alid =
        ⟨db, false, [⟨"Cannot delete: " ++ fkErrorMsg, "danger"⟩],
          .redirect "albums.index"⟩) ∧
    (∀ (u : User) (db : DB) (ctx : Ctx) (sid : Int) (sg : Song),
      u.is_superuser = true →
      db.songs.find? (fun r => r.id = sid) = some sg →
      songReferenced db sid = true →
      songs_delete u db ctx sid =
        ⟨db, false, [⟨"Cannot delete: " ++ fkErrorMsg, "danger"⟩],
          .redirect "songs.index"⟩) ∧
    (∀ (u : User) (db : DB) (ctx : Ctx) (gid : Int) (g : Genre),
      u.is_superuser = true →
      db.genres.find? (fun r => r.id = gid) = some g →
      genreReferenced db gid = true →
      genres_delete u db ctx gid =
        ⟨db, false, [⟨"Cannot delete: " ++ fkErrorMsg, "danger"⟩],
          .redirect "genres.index"⟩) := by
  refine ⟨?_, ?_, ?_, ?_⟩
  · intro u db ctx aid a hu hfind href
    unfold artists_delete superuser_required
    rw [hu, if_pos rfl]
    unfold artists_delete_inner
    simp only [hfind]
    rw [href, if_pos rfl]
  · intro u db ctx alid al hu hfind href
    unfold albums_delete superuser_required
    rw [hu, if_pos rfl]
    unfold albums_delete_inner
    simp only [hfind]
    rw [href, if_pos rfl]
  · intro u db ctx sid sg hu hfind href
    unfold songs_delete superuser_required
    rw [hu, if_pos rfl]
    unfold songs_delete_inner
    simp only [hfind]
    rw [href, if_pos rfl]
  · intro u db ctx gid g hu hfind href
    unfold genres_delete superuser_required
    rw [hu, if_pos rfl]
    unfold genres_delete_inner
    simp only [hfind]
    rw [href, if_pos rfl]

/-- C1 witness: on a concrete database in which every entity has a
dependent row, all four deletes are blocked and leave the database
unchanged. -/
theorem delete_referenced_blocked_witness :
    (artists_delete ⟨"sandro63"⟩
        ⟨[⟨1, "A", none⟩], [⟨1, "B", 1, none⟩], [⟨1, "S", none⟩], [⟨1, "G"⟩],
          [⟨1, 1⟩], [⟨1, 1⟩], [⟨1, 1⟩]⟩ ⟨none⟩ 1 =
      ⟨⟨[⟨1, "A", none⟩], [⟨1, "B", 1, none⟩], [⟨1, "S", none⟩], [⟨1, "G"⟩],
          [⟨1, 1⟩], [⟨1, 1⟩], [⟨1, 1⟩]⟩, false,
        [⟨"Cannot delete: " ++ fkErrorMsg, "danger"⟩], .redirect "artists.index"⟩) ∧
    (albums_delete ⟨"sandro63"⟩
        ⟨[⟨1, "A", none⟩], [⟨1, "B", 1, none⟩], [⟨1, "S", none⟩], [⟨1, "G"⟩],
          [⟨1, 1⟩], [⟨1, 1⟩], [⟨1, 1⟩]⟩ ⟨none⟩ 1 =
      ⟨⟨[⟨1, "A", none⟩], [⟨1, "B", 1, none⟩], [⟨1, "S", none⟩], [⟨1, "G"⟩],
          [⟨1, 1⟩], [⟨1, 1⟩], [⟨1, 1⟩]⟩, false,
        [⟨"Cannot delete: " ++ fkErrorMsg, "danger"⟩], .redirect "albums.index"⟩) ∧
    (songs_delete ⟨"sandro63"⟩
        ⟨[⟨1, "A", none⟩], [⟨1, "B", 1, none⟩], [⟨1, "S", none⟩], [⟨1, "G"⟩],
          [⟨1, 1⟩], [⟨1, 1⟩], [⟨1, 1⟩]⟩ ⟨none⟩ 1 =
      ⟨⟨[⟨1, "A", none⟩], [⟨1, "B", 1, none⟩], [⟨1, "S", none⟩], [⟨1, "G"⟩],
          [⟨1, 1⟩], [⟨1, 1⟩], [⟨1, 1⟩]⟩, false,
        [⟨"Cannot delete: " ++ fkErrorMsg, "danger"⟩], .redirect "songs.index"⟩) ∧
    (genres_delete ⟨"sandro63"⟩
        ⟨[⟨1, "A", none⟩], [⟨1, "B", 1, none⟩], [⟨1, "S", none⟩], [⟨1, "G"⟩],
          [⟨1, 1⟩], [⟨1, 1⟩], [⟨1, 1⟩]⟩ ⟨none⟩ 1 =
      ⟨⟨[⟨1, "A", none⟩], [⟨1, "B", 1, none⟩], [⟨1, "S", none⟩], [⟨1, "G"⟩],
          [⟨1, 1⟩], [⟨1, 1⟩], [⟨1, 1⟩]⟩, false,
        [⟨"Cannot delete: " ++ fkErrorMsg, "danger"⟩], .redirect "genres.index"⟩) :=
  ⟨delete_referenced_blocked.1 ⟨"sandro63"⟩ _ ⟨none⟩ 1 ⟨1, "A", none⟩
      (by decide) (by decide) (by decide),
    delete_referenced_blocked.2.1 ⟨"sandro63"⟩ _ ⟨none⟩ 1 ⟨1, "B", 1, none⟩
      (by decide) (by decide) (by decide),
    delete_referenced_blocked.2.2.1 ⟨"sandro63"⟩ _ ⟨none⟩ 1 ⟨1, "S", none⟩
      (by decide) (by decide) (by decide),
    delete_referenced_blocked.2.2.2 ⟨"sandro63"⟩ _ ⟨none⟩ 1 ⟨1, "G"⟩
      (by decide) (by decide) (by decide)⟩

/-- C6: `_init_db` is idempotent — running it twice against the same
storage path yields exactly the state of running it once, whatever the
schema-and-seed script does — and when storage already exists at the
path the invocation is a no-op. -/
theorem init_db_idempotent :
    ∀ (script : Storage → Storage) (st : Option Storage),
      _init_db script (_init_db script st) = _init_db script st ∧
      ∀ stg : Storage, _init_db script (some stg) = some stg := by
  intro script st
  constructor
  · cases st <;> rfl
  · intro stg
    rfl

/-- C9: the login credential check strips the username but not the
password: it succeeds exactly when the stripped username is a key of
the credential store whose stored secret equals the submitted password
character for character; so whitespace around the username is tolerated
while whitespace around the password fails. -/
theorem login_strips_username_only :
    (∀ u p : String, login_check u p = true ↔ USERS.lookup (pyStrip u) = some p) ∧
    login_check "  sandro63  " "sandro63" = true ∧
    login_check "sandro63" " sandro63" = false := by
  refine ⟨?_, by decide, by decide⟩
  intro u p
  unfold login_check
  cases h : USERS.lookup (pyStrip u) with
  | none => simp
  | some pw => simp [beq_iff_eq]

/-- C5 counterexample: the Song Create form input titled "x" with
duration field "-90" is accepted (the handler commits an insert), yet
the stored duration is -90, which is neither absent nor non-negative. -/
theorem stored_duration_nonneg_cex :
    (songs_create DB.empty ⟨"x", "-90"⟩ 1).committed = true ∧
    ¬ (∀ s ∈ (songs_create DB.empty ⟨"x", "-90"⟩ 1).db.songs,
        s.duration = none ∨ ∃ k : Int, 0 ≤ k ∧ s.duration = some k) := by
  constructor
  · decide
  · intro h
    have hmem : (⟨1, "x", some (-90)⟩ : Song) ∈
        (songs_create DB.empty ⟨"x", "-90"⟩ 1).db.songs := by decide
    rcases h _ hmem with hnone | ⟨k, hk, hsome⟩
    · exact absurd hnone (by decide)
    · have hsk : (some (-90) : Option Int) = some k := hsome
      injection hsk with hkk
      omega

/-- C5 (amended): every duration written to storage by Song Create or
Edit is either absent or an integer number of whole seconds — exactly
the value `mmss_to_seconds` parses from the submitted form — but it is
not guaranteed non-negative (e.g. the input "-90" stores -90). -/
theorem stored_duration_amended :
    (∀ (db : DB) (form : SongForm) (nid : Int),
      ∀ s ∈ (songs_create db form nid).db.songs,
        s ∈ db.songs ∨ s.duration = mmss_to_seconds form.duration) ∧
    (∀ (db : DB) (sid : Int) (form : SongForm),
      ∀ s ∈ (songs_edit db sid form).db.songs,
        s ∈ db.songs ∨ s.duration = mmss_to_seconds form.duration) := by
  constructor
  · intro db form nid s hs
    unfold songs_create at hs
    by_cases ht : pyStrip form.title = ""
    · rw [if_pos ht] at hs
      exact Or.inl hs
    · rw [if_neg ht] at hs
      rcases List.mem_append.1 hs with h | h
      · exact Or.inl h
      · rcases List.mem_singleton.1 h with rfl
        exact Or.inr rfl
  · intro db sid form s hs
    unfold songs_edit at hs
    cases hfind : db.songs.find? (fun r => r.id = sid) with
    | none =>
      rw [hfind] at hs
      exact Or.inl hs
    | some old =>
      rw [hfind] at hs
      by_cases ht : pyStrip form.title = ""
      · rw [if_pos ht] at hs
        exact Or.inl hs
      · rw [if_neg ht] at hs
        rcases List.mem_map.1 hs with ⟨a, ha, hae⟩
        by_cases hid : a.id = sid
        · rw [if_pos hid] at hae
          rcases hae with rfl
          exact Or.inr rfl
        · rw [if_neg hid] at hae
          rcases hae with rfl
          exact Or.inl ha

/-- C5 amended witness: on the empty database the created song's
duration is exactly the parsed form value. -/
theorem stored_duration_amended_witness :
    (⟨1, "x", some (-90)⟩ : Song) ∈ (songs_create DB.empty ⟨"x", "-90"⟩ 1).db.songs ∧
    ((⟨1, "x", some (-90)⟩ : Song) ∈ DB.empty.songs ∨
      (⟨1, "x", some (-90)⟩ : Song).duration = mmss_to_seconds "-90") :=
  ⟨by decide, stored_duration_amended.1 DB.empty ⟨"x", "-90"⟩ 1 _ (by decide)⟩

/-- Helper: `value.strip() or None` never stores the empty string. -/
theorem orNone_ok (s : String) :
    orNone s = none ∨ ∃ t, orNone s = some t ∧ t ≠ "" := by
  unfold orNone
  by_cases h : pyStrip s = ""
  · rw [if_pos h]
    exact Or.inl rfl
  · rw [if_neg h]
    exact Or.inr ⟨pyStrip s, rfl, h⟩

/-- C10: for Artist Create/Edit and Album Create/Edit, an optional
field submitted empty or whitespace-only is stored as absent, and
every stored optional field is either absent or a non-empty (stripped)
string — never the empty string. -/
theorem optional_fields_stored :
    (∀ s : String, pyStripList s.data = [] → orNone s = none) ∧
    (∀ s : String, orNone s = none ∨ ∃ t, orNone s = some t ∧ t ≠ "") ∧
    (∀ (db : DB) (form : ArtistForm) (nid : Int),
      ∀ a ∈ (artists_create db form nid).db.artists,
        a ∈ db.artists ∨ a.bio = none ∨ ∃ t, a.bio = some t ∧ t ≠ "") ∧
    (∀ (db : DB) (aid : Int) (form : ArtistForm),
      ∀ a ∈ (artists_edit db aid form).db.artists,
        a ∈ db.artists ∨ a.bio = none ∨ ∃ t, a.bio = some t ∧ t ≠ "") ∧
    (∀ (db : DB) (form : AlbumForm) (nid : Int),
      ∀ al ∈ (albums_create db form nid).db.albums,
        al ∈ db.albums ∨ al.release_year = none ∨
          ∃ t, al.release_year = some t ∧ t ≠ "") ∧
    (∀ (db : DB) (alid : Int) (form : AlbumForm),
      ∀ al ∈ (albums_edit db alid form).db.albums,
        al ∈ db.albums ∨ al.release_year = none ∨
          ∃ t, al.release_year = some t ∧ t ≠ "") := by
  refine ⟨?_, fun s => orNone_ok s, ?_, ?_, ?_, ?_⟩
  · intro s hs
    unfold orNone
    rw [if_pos (show pyStrip s = "" by unfold pyStrip; rw [hs])]
  · intro db form nid a ha
    unfold artists_create at ha
    simp only [] at ha
    split at ha
    · exact Or.inl ha
    · rcases List.mem_append.1 ha with h | h
      · exact Or.inl h
      · rcases List.mem_singleton.1 h with rfl
        exact Or.inr (orNone_ok form.bio)
  · intro db aid form a ha
    unfold artists_edit at ha
    simp only [] at ha
    split at ha
    · exact Or.inl ha
    · split at ha
      · exact Or.inl ha
      · rcases List.mem_map.1 ha with ⟨b, hb, hbe⟩
        by_cases hid : b.id = aid
        · rw [if_pos hid] at hbe
          rcases hbe with rfl
          exact Or.inr (orNone_ok form.bio)
        · rw [if_neg hid] at hbe
          rcases hbe with rfl
          exact Or.inl hb
  · intro db form nid al hal
    unfold albums_create at hal
    simp only [] at hal
    split at hal
    · exact Or.inl hal
    · split at hal
      · exact Or.inl hal
      · split at hal
        · rcases List.mem_append.1 hal with h | h
          · exact Or.inl h
          · rcases List.mem_singleton.1 h with rfl
            exact Or.inr (orNone_ok form.release_year)
        · exact Or.inl hal
  · intro db alid form al hal
    unfold albums_edit at hal
    simp only [] at hal
    split at hal
    · exact Or.inl hal
    · split at hal
      · exact Or.inl hal
      · split at hal
        · exact Or.inl hal
        · split at hal
          · rcases List.mem_map.1 hal with ⟨a, ha, hae⟩
            by_cases hid : a.id = alid
            · rw [if_pos hid] at hae
              rcases hae with rfl
              exact Or.inr (orNone_ok form.release_year)
            · rw [if_neg hid] at hae
              rcases hae with rfl
              exact Or.inl ha
          · exact Or.inl hal

/-- C10 witness: a whitespace-only biography on the concrete Artist
Create form is stored as absent, and likewise on Artist Edit. -/
theorem optional_fields_stored_witness :
    orNone "   " = none ∧
    ((⟨1, "A", none⟩ : Artist) ∈ (artists_create DB.empty ⟨"A", "   "⟩ 1).db.artists ∧
      ((⟨1, "A", none⟩ : Artist) ∈ DB.empty.artists ∨
        (⟨1, "A", none⟩ : Artist).bio = none ∨
        ∃ t, (⟨1, "A", none⟩ : Artist).bio = some t ∧ t ≠ "")) ∧
    ((⟨1, "A2", none⟩ : Artist) ∈
        (artists_edit ⟨[⟨1, "A", some "b"⟩], [], [], [], [], [], []⟩ 1
          ⟨"A2", " "⟩).db.artists ∧
      ((⟨1, "A2", none⟩ : Artist) ∈
          (⟨[⟨1, "A", some "b"⟩], [], [], [], [], [], []⟩ : DB).artists ∨
        (⟨1, "A2", none⟩ : Artist).bio = none ∨
        ∃ t, (⟨1, "A2", none⟩ : Artist).bio = some t ∧ t ≠ "")) :=
  ⟨optional_fields_stored.1 "   " (by decide),
    ⟨by decide,
      optional_fields_stored.2.2.1 DB.empty ⟨"A", "   "⟩ 1 ⟨1, "A", none⟩ (by decide)⟩,
    by decide,
    optional_fields_stored.2.2.2.1 ⟨[⟨1, "A", some "b"⟩], [], [], [], [], [], []⟩ 1
      ⟨"A2", " "⟩ ⟨1, "A2", none⟩ (by decide)⟩

/-- The `ORDER BY` comparison is transitive. -/
theorem asRowLe_trans :
    ∀ a b c : ASRow, asRowLe a b = true → asRowLe b c = true → asRowLe a c = true := by
  intro a b c hab hbc
  unfold asRowLe at hab hbc ⊢
  simp only [Bool.or_eq_true, Bool.and_eq_true, decide_eq_true_eq] at hab hbc ⊢
  rcases hab with hab | ⟨hab1, hab2⟩ <;> rcases hbc with hbc | ⟨hbc1, hbc2⟩
  · exact Or.inl (lt_trans hab hbc)
  · exact Or.inl (hbc1 ▸ hab)
  · exact Or.inl (hab1 ▸ hbc)
  · exact Or.inr ⟨hab1.trans hbc1, le_trans hab2 hbc2⟩

/-- The `ORDER BY` comparison is total. -/
theorem asRowLe_total :
    ∀ a b : ASRow, (asRowLe a b || asRowLe b a) = true := by
  intro a b
  unfold asRowLe
  simp only [Bool.or_eq_true, Bool.and_eq_true, decide_eq_true_eq]
  rcases lt_trichotomy a.album_title b.album_title with h | h | h
  · tauto
  · rcases le_total a.song_title b.song_title with hs | hs
    · tauto
    · have h' := h.symm
      tauto
  · tauto

/-- C7: the AlbumSong listing is the three-table join ordered first by
album title then by song title: its output is sorted under that
lexicographic order, is a permutation of the raw join (so no row or
endpoint data is lost or duplicated by the ordering), and contains one
row for every association row together with its matching album and
song titles. -/
theorem album_songs_index_spec :
    ∀ db : DB,
      (album_songs_index db).Pairwise (fun a b => asRowLe a b = true) ∧
      (album_songs_index db).Perm (album_songs_join db) ∧
      (∀ als ∈ db.album_songs, ∀ al ∈ db.albums, ∀ s ∈ db.songs,
        al.id = als.album_id → s.id = als.song_id →
        (⟨al.id, al.title, s.id, s.title⟩ : ASRow) ∈ album_songs_index db) := by
  intro db
  refine ⟨?_, ?_, ?_⟩
  · exact List.sorted_mergeSort asRowLe_trans asRowLe_total (album_songs_join db)
  · exact List.mergeSort_perm _ _
  · intro als hals al hal s hs hid1 hid2
    have hjoin : (⟨al.id, al.title, s.id, s.title⟩ : ASRow) ∈ album_songs_join db := by
      unfold album_songs_join
      refine List.mem_flatMap.2 ⟨als, hals, ?_⟩
      refine List.mem_flatMap.2 ⟨al, List.mem_filter.2 ⟨hal, by simp [hid1]⟩, ?_⟩
      exact List.mem_map.2 ⟨s, List.mem_filter.2 ⟨hs, by simp [hid2]⟩, rfl⟩
    unfold album_songs_index
    exact List.mem_mergeSort.2 hjoin

/-- C7 witness: on a concrete one-association database the join row
appears in the ordered listing. -/
theorem album_songs_index_spec_witness :
    (⟨1, "B", 1, "S"⟩ : ASRow) ∈ album_songs_index
      ⟨[⟨1, "A", none⟩], [⟨1, "B", 1, none⟩], [⟨1, "S", none⟩], [], [⟨1, 1⟩], [], []⟩ :=
  (album_songs_index_spec _).2.2 ⟨1, 1⟩ (by decide) ⟨1, "B", 1, none⟩ (by decide)
    ⟨1, "S", none⟩ (by decide) (by decide) (by decide)

end MusicDB
